import Mathlib

/-!
Shallow embedding of `src/fsevent.rs` (the FSEvents native-callback to
async-stream bridge) and proofs about its spec claims.

The embedding models:
* the bounded tokio event channel (`Channel`, `Channel.trySend`) with its
  documented non-blocking try-send semantics (capacity 1024, lossy on
  full/closed);
* the per-entry decode pipeline of `callback_impl` (inode `to_i64`, then
  `StreamFlags::from_bits`, both fallible, then `try_send`);
* the `catch_unwind` boundary of `callback`;
* `RawEventStreamHandler.abort` as a state transition emitting a trace of
  the shutdown actions it performs, in order;
* `raw_event_stream` construction with its failure mode;
* the aborted-stream polling behaviour of `RawEventStream::poll_next`
  (a pass-through to `futures::stream::Abortable` over a
  `ReceiverStream`, which reports `Ready(None)` once aborted).

The flags decoder `StreamFlags::from_bits` lives in an external module
(`crate::flags`); every claim here holds for an arbitrary decoder, so the
development is parametric in a function `fromBits : Nat → Option F`.
-/

/-- Log lines emitted by the bridge, one constructor per `error!`/`debug!`
call site in `callback_impl` (`src/fsevent.rs` lines 215, 256, 259, 260). -/
inductive LogMsg where
  /-- `debug!("Received {} event(s)", num_events)` -/
  | debugReceived (numEvents : Nat)
  /-- `error!("Unable to raw event from low-level callback: {}", e)` -/
  | sendFail
  /-- `error!("Unable to convert inode field to i64")` -/
  | toI64Fail
  /-- `error!("Unable to parse flags")` -/
  | parseFlagsFail
deriving DecidableEq, Repr

/-- `enum CallbackError { ToI64, ParseFlags }` from `src/fsevent.rs`. -/
inductive CallbackError where
  | ToI64
  | ParseFlags
deriving DecidableEq, Repr

/-- The bounded `tokio::sync::mpsc` channel (`src/fsevent.rs` line 127
creates it with capacity 1024). `buffer` holds queued items front-first;
the receiver pops from the front, the sender appends at the back (FIFO).
`receiverDropped` models the closed state seen by `try_send`. -/
structure Channel (α : Type) where
  capacity : Nat
  buffer : List α
  receiverDropped : Bool
deriving Repr

/-- Error value of `tokio::sync::mpsc::Sender::try_send`. -/
inductive TrySendError where
  | closed
  | full
deriving DecidableEq, Repr

/-- `Sender::try_send` per its documented semantics: returns immediately
(it is a plain total function here — it never waits); fails with `closed`
if the receiver is gone, with `full` if the buffer is at capacity, and
otherwise enqueues at the back. -/
def Channel.trySend {α : Type} (ch : Channel α) (x : α) :
    Channel α × Option TrySendError :=
  if ch.receiverDropped then (ch, some .closed)
  else if ch.capacity ≤ ch.buffer.length then (ch, some .full)
  else ({ ch with buffer := ch.buffer ++ [x] }, none)

/-- `mpsc::channel(cap)`: fresh open channel. -/
def mkChannel (α : Type) (cap : Nat) : Channel α :=
  { capacity := cap, buffer := [], receiverDropped := false }

/-- A native `CFNumber` as seen through the only operation the bridge
uses on it: the fallible `to_i64` conversion. -/
structure CFNumberVal where
  toI64 : Option Int
deriving Repr

/-- One entry of the parallel arrays handed to the native callback: the
extended-data dictionary (path string and file-id `CFNumber`), the raw
flags word, and the event id (`src/fsevent.rs` lines 221–226). -/
structure NativeEntry where
  path : String
  inode : CFNumberVal
  rawFlags : Nat
  id : Nat
deriving Repr

/-- `pub struct RawEvent` (`src/fsevent.rs` lines 80–87), parametric in
the external decoded-flags type `F` (`StreamFlags`). -/
structure RawEvent (F : Type) where
  path : String
  inode : Int
  flags : F
  raw_flags : Nat
  id : Nat
deriving Repr

/-- The per-entry decode chain of `callback_impl` (`src/fsevent.rs`
lines 222–251): convert the inode `CFNumber` with `to_i64`
(`none` → `CallbackError.ToI64`), then decode the raw flags with
`StreamFlags::from_bits` (`none` → `CallbackError.ParseFlags`), and on
success build the `RawEvent` carrying both decoded and raw flags. -/
def decodeEntry {F : Type} (fromBits : Nat → Option F) (e : NativeEntry) :
    Except CallbackError (RawEvent F) :=
  match e.inode.toI64 with
  | none => .error .ToI64
  | some inode =>
    match fromBits e.rawFlags with
    | none => .error .ParseFlags
    | some flags =>
      .ok { path := e.path, inode := inode, flags := flags,
            raw_flags := e.rawFlags, id := e.id }

/-- The mutable state a callback invocation touches: the event channel
(through the sender held by `StreamContextInfo`) and the log sink. -/
structure CbState (F : Type) where
  chan : Channel (RawEvent F)
  logs : List LogMsg
deriving Repr

/-- The body of the per-entry `match` in `callback_impl`
(`src/fsevent.rs` lines 221–261): a decoded event is `try_send`-ed, and
a failed send is logged and the event dropped; a decode error is logged
and the entry skipped. Nothing blocks and no error is returned. -/
def processEntry {F : Type} (fromBits : Nat → Option F)
    (s : CbState F) (e : NativeEntry) : CbState F :=
  match decodeEntry fromBits e with
  | .ok ev =>
    match s.chan.trySend ev with
    | (ch', none) => { s with chan := ch' }
    | (ch', some _) => { chan := ch', logs := s.logs ++ [.sendFail] }
  | .error .ToI64 => { s with logs := s.logs ++ [.toI64Fail] }
  | .error .ParseFlags => { s with logs := s.logs ++ [.parseFlagsFail] }

/-- `callback_impl` over one batch: the `debug!` line, then the
`for idx in 0..num_events` loop in entry order. -/
def callback_impl {F : Type} (fromBits : Nat → Option F)
    (s : CbState F) (batch : List NativeEntry) : CbState F :=
  (batch.foldl (processEntry fromBits)
    { s with logs := s.logs ++ [.debugReceived batch.length] })

/-- A whole run: successive native callback invocations, batch by batch. -/
def runBatches {F : Type} (fromBits : Nat → Option F)
    (s : CbState F) (batches : List (List NativeEntry)) : CbState F :=
  batches.foldl (callback_impl fromBits) s

/-- What the consumer ultimately observes when it drains the paired
stream after the batches have been processed from a fresh construction
state: the channel buffer in FIFO order (`ReceiverStream` pops from the
front of the queue the sender appended to). -/
def deliveredEvents {F : Type} (fromBits : Nat → Option F) (cap : Nat)
    (batches : List (List NativeEntry)) : List (RawEvent F) :=
  (runBatches fromBits { chan := mkChannel _ cap, logs := [] } batches).chan.buffer

/-- A `CFRunLoop` handle as used by `abort`: the only query performed on
it is `is_waiting` (`CFRunLoopIsWaiting`). -/
structure RunLoop where
  isWaiting : Bool
deriving DecidableEq, Repr

/-- Placeholder for `thread::JoinHandle<()>`: `abort` only joins it. -/
structure ThreadHandle where
deriving DecidableEq, Repr

/-- Placeholder for `futures::stream::AbortHandle`: `abort` only calls
`.abort()` on it, and dropping it does nothing to the paired stream. -/
structure AbortHandle where
deriving DecidableEq, Repr

/-- The observable side effects the bridge performs, used to record the
order of the shutdown, construction, and disposal steps. -/
inductive BridgeAction where
  /-- `runloop.add_observer(&observer, kCFRunLoopDefaultMode)` -/
  | addObserver
  /-- `rx.recv()` blocking for the one-shot `BeforeWaiting` signal -/
  | recvIdleSignal
  /-- `runloop.remove_observer(&observer, kCFRunLoopDefaultMode)` -/
  | removeObserver
  /-- `runloop.stop()` (`CFRunLoopStop`) -/
  | stopRunLoop
  /-- `thread_handle.join()` -/
  | joinThread
  /-- `abort_handle.abort()` on the async stream -/
  | abortStream
  /-- `thread::spawn` of the run-loop host thread -/
  | spawnThread
  /-- `runloop_rx.recv()` of the published run-loop handle -/
  | recvRunLoop
  /-- dropping the `CFRunLoop` field releases a reference count only -/
  | releaseRunLoopRef
  /-- dropping a `thread::JoinHandle` detaches the thread -/
  | detachThread
  /-- dropping a `futures::stream::AbortHandle` (does not abort) -/
  | dropAbortHandle
deriving DecidableEq, Repr

/-- `pub struct RawEventStreamHandler` (`src/fsevent.rs` lines 51–53):
an `Option` of the owned triple (run-loop handle, thread join handle,
abort handle). -/
structure RawEventStreamHandler where
  runloop : Option (RunLoop × ThreadHandle × AbortHandle)
deriving Repr

/-- `RawEventStreamHandler::abort` (`src/fsevent.rs` lines 57–77) as a
state transition plus the ordered trace of the shutdown actions it
performs. `self.runloop.take()` consumes the triple; when it was `None`
nothing at all happens. Otherwise, in source order: register the
one-shot `BeforeWaiting` observer, block on `rx.recv()` unless
`runloop.is_waiting()` already holds, remove the observer, stop the run
loop, join the host thread, and finally abort the async stream. -/
def RawEventStreamHandler.abort (h : RawEventStreamHandler) :
    RawEventStreamHandler × List BridgeAction :=
  match h.runloop with
  | none => (h, [])
  | some (rl, _th, _ah) =>
    ({ runloop := none },
      [BridgeAction.addObserver]
        ++ (if rl.isWaiting then [] else [BridgeAction.recvIdleSignal])
        ++ [BridgeAction.removeObserver, BridgeAction.stopRunLoop,
            BridgeAction.joinThread, BridgeAction.abortStream])

/-- `RawEventStreamHandler` implements no `Drop`, so discarding it only
runs the field destructors of the owned triple: releasing the
`CFRunLoop` reference, detaching the `JoinHandle`, and dropping the
`AbortHandle` (which does not abort). No shutdown action is taken. -/
def dropHandler (h : RawEventStreamHandler) : List BridgeAction :=
  match h.runloop with
  | none => []
  | some _ => [BridgeAction.releaseRunLoopRef, BridgeAction.detachThread, BridgeAction.dropAbortHandle]

/-- The external state the bridge's actions act on: whether the native
run loop is still running, whether the host thread is still alive, and
whether the async stream has been aborted. -/
structure World where
  loopRunning : Bool
  threadAlive : Bool
  streamAborted : Bool
deriving DecidableEq, Repr

/-- Effect of each recorded action on the external state. Observer
registration, hand-offs, and plain destructor actions change nothing:
only `CFRunLoopStop`, the thread join, and `AbortHandle::abort` do. -/
def applyAction (w : World) : BridgeAction → World
  | .stopRunLoop => { w with loopRunning := false }
  | .joinThread => { w with threadAlive := false }
  | .abortStream => { w with streamAborted := true }
  | _ => w

/-- Run a trace of actions over the external state, in order. -/
def applyTrace (w : World) (tr : List BridgeAction) : World :=
  tr.foldl applyAction w

/-- `Poll` from the async runtime: a poll either suspends the task
(`pending`) or completes with a value. -/
inductive Poll (α : Type) where
  | pending
  | ready (a : α)
deriving DecidableEq, Repr

/-- `pub struct RawEventStream` (`src/fsevent.rs` lines 89–91):
`Abortable<ReceiverStream<RawEvent>>`, i.e. the channel receiver plus
the shared aborted flag set by the paired `AbortHandle`. -/
structure RawEventStream (F : Type) where
  aborted : Bool
  chan : Channel (RawEvent F)
deriving Repr

/-- `RawEventStream::poll_next` (`src/fsevent.rs` lines 96–98): a direct
pass-through to the `Abortable` wrapper, which per its semantics first
checks the aborted flag and reports `Ready(None)` (sequence ended) when
set; otherwise it polls the `ReceiverStream`: a queued item is popped
from the front, an empty queue with all senders dropped ends the
sequence, and an empty open queue suspends the task. The item type has
no error variant, so no poll can return an error. -/
def pollNext {F : Type} (s : RawEventStream F) :
    Poll (Option (RawEvent F)) × RawEventStream F :=
  if s.aborted then (.ready none, s)
  else
    match s.chan.buffer with
    | [] =>
      if s.chan.receiverDropped then (.ready none, s) else (.pending, s)
    | x :: rest =>
      (.ready (some x), { s with chan := { s.chan with buffer := rest } })

/-- The stream state after one poll, for iterating polls. -/
def pollDrive {F : Type} (s : RawEventStream F) : RawEventStream F :=
  (pollNext s).2

/-- Calling `handler.abort()` on the handler paired with stream `s`:
the `abortStream` action in the emitted trace is precisely the
`abort_handle.abort()` call, which sets the shared aborted flag of the
paired `Abortable` stream. -/
def abortPair {F : Type} (h : RawEventStreamHandler) (s : RawEventStream F) :
    RawEventStreamHandler × RawEventStream F :=
  (h.abort.1,
    if BridgeAction.abortStream ∈ h.abort.2 then { s with aborted := true } else s)

/-- The `io::Error` surfaced by `raw_event_stream`, abstracted to its
message. -/
structure IOError where
  msg : String
deriving DecidableEq, Repr

/-- `raw_event_stream` (`src/fsevent.rs` lines 121–180), parametric in
the outcome of the external `FSEventStream::new` native call
(`newRes`) and in the run-loop handle the host thread publishes
(`rl`). In source order: create the bounded channel with capacity 1024,
build the context around the sender, attempt to create the native
stream — the `?` operator returns the `io::Error` immediately, before
any thread is spawned, and drops the channel and context normally —
then spawn the host thread, block receiving the published run-loop
handle, wrap the receiver in an abortable stream, and return the pair
with the handler owning the triple. -/
def raw_event_stream (F : Type) (newRes : Except IOError Unit) (rl : RunLoop) :
    Except IOError (RawEventStream F × RawEventStreamHandler) × List BridgeAction :=
  match newRes with
  | .error e => (.error e, [])
  | .ok _ =>
    (.ok ({ aborted := false, chan := mkChannel (RawEvent F) 1024 },
          { runloop := some (rl, {}, {}) }),
      [BridgeAction.spawnThread, BridgeAction.recvRunLoop])

/-- The outcome of running one callback invocation's body: either it ran
to completion, or it panicked part-way with the side effects performed
so far (`st`) and a panic payload. Unwinding across the `extern "C"`
boundary never happens in the model: the boundary below catches it. -/
inductive PanicOutcome (α : Type) where
  | ok (st : α)
  | panicked (st : α) (payload : String)
deriving Repr

/-- `extern "C" fn callback` (`src/fsevent.rs` lines 182–200):
`drop(catch_unwind(move || callback_impl(...)))`. The body's outcome is
caught; a panic leaves the side effects performed before the panic in
place, the rest of the invocation's work is abandoned, and the caught
payload is dropped without any further action — in particular the
source contains no log call on this path. The function always returns
normally; nothing unwinds into the native caller. -/
def callback {F : Type} (body : CbState F → PanicOutcome (CbState F))
    (s : CbState F) : CbState F :=
  match body s with
  | .ok s' => s'
  | .panicked s' _payload => s'

/-- The log line `callback_impl` emits for each `CallbackError` variant. -/
def errLog : CallbackError → LogMsg
  | .ToI64 => .toI64Fail
  | .ParseFlags => .parseFlagsFail

/-- The channel evolution performed by one loop iteration of
`callback_impl`, separated from the log evolution: a decode failure
leaves the channel alone, a decoded event goes through `try_send`. -/
def chanStep {F : Type} (fromBits : Nat → Option F)
    (ch : Channel (RawEvent F)) (e : NativeEntry) : Channel (RawEvent F) :=
  match decodeEntry fromBits e with
  | .ok ev => (ch.trySend ev).1
  | .error _ => ch

/-- The events of a batch that decode successfully, in entry order. -/
def decodedOk {F : Type} (fromBits : Nat → Option F)
    (entries : List NativeEntry) : List (RawEvent F) :=
  entries.filterMap (fun e => (decodeEntry fromBits e).toOption)

theorem chanStep_error {F : Type} (fromBits : Nat → Option F)
    (ch : Channel (RawEvent F)) (e : NativeEntry) (err : CallbackError)
    (h : decodeEntry fromBits e = .error err) :
    chanStep fromBits ch e = ch := by
  unfold chanStep; rw [h]

theorem chanStep_ok {F : Type} (fromBits : Nat → Option F)
    (ch : Channel (RawEvent F)) (e : NativeEntry) (ev : RawEvent F)
    (h : decodeEntry fromBits e = .ok ev) :
    chanStep fromBits ch e = (ch.trySend ev).1 := by
  unfold chanStep; rw [h]

theorem processEntry_chan {F : Type} (fromBits : Nat → Option F)
    (s : CbState F) (e : NativeEntry) :
    (processEntry fromBits s e).chan = chanStep fromBits s.chan e := by
  unfold processEntry chanStep
  cases h : decodeEntry fromBits e with
  | error err => cases err <;> rfl
  | ok ev =>
    cases h2 : s.chan.trySend ev with
    | mk ch' o => cases o <;> simp [h2]

theorem foldl_processEntry_chan {F : Type} (fromBits : Nat → Option F)
    (batch : List NativeEntry) (s : CbState F) :
    (batch.foldl (processEntry fromBits) s).chan
      = batch.foldl (chanStep fromBits) s.chan := by
  induction batch generalizing s with
  | nil => rfl
  | cons e rest ih =>
    simp only [List.foldl_cons]
    rw [ih, processEntry_chan]

theorem callback_impl_chan {F : Type} (fromBits : Nat → Option F)
    (s : CbState F) (batch : List NativeEntry) :
    (callback_impl fromBits s batch).chan
      = batch.foldl (chanStep fromBits) s.chan := by
  unfold callback_impl
  rw [foldl_processEntry_chan]

theorem runBatches_chan {F : Type} (fromBits : Nat → Option F)
    (s : CbState F) (batches : List (List NativeEntry)) :
    (runBatches fromBits s batches).chan
      = batches.flatten.foldl (chanStep fromBits) s.chan := by
  induction batches generalizing s with
  | nil => rfl
  | cons b bs ih =>
    unfold runBatches at ih ⊢
    simp only [List.foldl_cons, List.flatten_cons, List.foldl_append]
    rw [ih, callback_impl_chan]

theorem trySend_fst {α : Type} (ch : Channel α) (x : α) :
    (ch.trySend x).1 = ch
    ∨ (ch.trySend x).1 = { ch with buffer := ch.buffer ++ [x] } := by
  unfold Channel.trySend
  by_cases h1 : ch.receiverDropped
  · left; rw [if_pos h1]
  · rw [if_neg h1]
    by_cases h2 : ch.capacity ≤ ch.buffer.length
    · left; rw [if_pos h2]
    · right; rw [if_neg h2]

theorem trySend_fail {α : Type} (ch : Channel α) (x : α)
    (h : ch.receiverDropped = true ∨ ch.capacity ≤ ch.buffer.length) :
    ∃ err, ch.trySend x = (ch, some err) := by
  unfold Channel.trySend
  by_cases h1 : ch.receiverDropped
  · exact ⟨.closed, by rw [if_pos h1]⟩
  · rcases h with h | h
    · exact absurd h (by simpa using h1)
    · exact ⟨.full, by rw [if_neg h1, if_pos h]⟩

theorem decodeEntry_ok_spec {F : Type} (fromBits : Nat → Option F)
    (e : NativeEntry) (ev : RawEvent F) (h : decodeEntry fromBits e = .ok ev) :
    ev.id = e.id ∧ ev.raw_flags = e.rawFlags
      ∧ fromBits e.rawFlags = some ev.flags := by
  unfold decodeEntry at h
  cases h1 : e.inode.toI64 with
  | none => rw [h1] at h; exact absurd h (by simp)
  | some i =>
    rw [h1] at h
    cases h2 : fromBits e.rawFlags with
    | none => rw [h2] at h; exact absurd h (by simp)
    | some fl =>
      rw [h2] at h
      simp only [Except.ok.injEq] at h
      subst h
      exact ⟨rfl, rfl, rfl⟩

theorem except_toOption_eq_some {ε α : Type} (x : Except ε α) (a : α)
    (h : x.toOption = some a) : x = .ok a := by
  cases x with
  | ok b => simpa [Except.toOption] using h
  | error e => simp [Except.toOption] at h

theorem decodedOk_cons_error {F : Type} (fromBits : Nat → Option F)
    (e : NativeEntry) (rest : List NativeEntry) (err : CallbackError)
    (h : decodeEntry fromBits e = .error err) :
    decodedOk fromBits (e :: rest) = decodedOk fromBits rest := by
  unfold decodedOk
  rw [List.filterMap_cons, h]
  rfl

theorem decodedOk_cons_ok {F : Type} (fromBits : Nat → Option F)
    (e : NativeEntry) (rest : List NativeEntry) (ev : RawEvent F)
    (h : decodeEntry fromBits e = .ok ev) :
    decodedOk fromBits (e :: rest) = ev :: decodedOk fromBits rest := by
  unfold decodedOk
  rw [List.filterMap_cons, h]
  rfl

theorem decodedOk_ids {F : Type} (fromBits : Nat → Option F)
    (entries : List NativeEntry) :
    List.Sublist ((decodedOk fromBits entries).map RawEvent.id)
      (entries.map NativeEntry.id) := by
  induction entries with
  | nil => simp [decodedOk]
  | cons e rest ih =>
    cases h : decodeEntry fromBits e with
    | error err =>
      rw [decodedOk_cons_error fromBits e rest err h, List.map_cons]
      exact ih.cons _
    | ok ev =>
      rw [decodedOk_cons_ok fromBits e rest ev h, List.map_cons, List.map_cons,
        (decodeEntry_ok_spec fromBits e ev h).1]
      exact ih.cons₂ _

theorem chanFold_buffer {F : Type} (fromBits : Nat → Option F)
    (entries : List NativeEntry) (ch : Channel (RawEvent F)) :
    ∃ extra, (entries.foldl (chanStep fromBits) ch).buffer = ch.buffer ++ extra
      ∧ List.Sublist extra (decodedOk fromBits entries) := by
  induction entries generalizing ch with
  | nil => exact ⟨[], by simp, by simp [decodedOk]⟩
  | cons e rest ih =>
    simp only [List.foldl_cons]
    cases h : decodeEntry fromBits e with
    | error err =>
      rw [chanStep_error fromBits ch e err h,
        decodedOk_cons_error fromBits e rest err h]
      exact ih ch
    | ok ev =>
      rw [chanStep_ok fromBits ch e ev h, decodedOk_cons_ok fromBits e rest ev h]
      rcases trySend_fst ch ev with hfst | hfst
      · rw [hfst]
        obtain ⟨extra, hbuf, hsub⟩ := ih ch
        exact ⟨extra, hbuf, hsub.cons _⟩
      · rw [hfst]
        obtain ⟨extra, hbuf, hsub⟩ := ih { ch with buffer := ch.buffer ++ [ev] }
        refine ⟨ev :: extra, ?_, hsub.cons₂ _⟩
        rw [hbuf]
        simp

theorem pollNext_aborted {F : Type} (s : RawEventStream F)
    (h : s.aborted = true) : pollNext s = (.ready none, s) := by
  unfold pollNext
  rw [h]
  rfl

/-- A concrete flags decoder for the concrete runs below: raw words below
16 decode to themselves, larger ones are undecodable. -/
def fromBitsTest : Nat → Option Nat :=
  fun n => if n < 16 then some n else none

/-- A well-formed concrete native entry. -/
def entryA : NativeEntry :=
  { path := "a", inode := ⟨some 7⟩, rawFlags := 3, id := 1 }

/-- The event `entryA` decodes to under `fromBitsTest`. -/
def evA : RawEvent Nat :=
  { path := "a", inode := 7, flags := 3, raw_flags := 3, id := 1 }

/-- A malformed concrete entry: its inode has no 64-bit representation. -/
def entryBad : NativeEntry :=
  { path := "d", inode := ⟨none⟩, rawFlags := 3, id := 2 }

/-- A well-formed concrete entry with event id 5. -/
def eId5 : NativeEntry :=
  { path := "b", inode := ⟨some 8⟩, rawFlags := 1, id := 5 }

/-- A well-formed concrete entry with event id 3. -/
def eId3 : NativeEntry :=
  { path := "c", inode := ⟨some 9⟩, rawFlags := 2, id := 3 }

/-- Claim C1: `RawEventStreamHandler::abort`, on a handler still owning
its triple, performs the shutdown steps in exactly this fixed order:
register the one-shot idle observer on the run loop, block receiving the
idle signal unless the loop is already waiting, unregister the observer,
stop the run loop, join the host thread, and only then invoke the abort
controller of the async stream; running that trace leaves the loop
stopped, the thread joined, and the stream aborted. -/
theorem abort_shutdown_order (h : RawEventStreamHandler) (rl : RunLoop)
    (th : ThreadHandle) (ah : AbortHandle) (w : World)
    (hr : h.runloop = some (rl, th, ah)) :
    h.abort.2
      = [BridgeAction.addObserver]
          ++ (if rl.isWaiting then [] else [BridgeAction.recvIdleSignal])
          ++ [BridgeAction.removeObserver, BridgeAction.stopRunLoop,
              BridgeAction.joinThread, BridgeAction.abortStream]
    ∧ applyTrace w h.abort.2
        = { loopRunning := false, threadAlive := false, streamAborted := true } := by
  have htr : h.abort.2
      = [BridgeAction.addObserver]
          ++ (if rl.isWaiting then [] else [BridgeAction.recvIdleSignal])
          ++ [BridgeAction.removeObserver, BridgeAction.stopRunLoop,
              BridgeAction.joinThread, BridgeAction.abortStream] := by
    unfold RawEventStreamHandler.abort
    rw [hr]
  refine ⟨htr, ?_⟩
  rw [htr]
  cases rl.isWaiting <;> rfl

/-- Witness for C1: a handler owning a concrete triple whose run loop is
not yet waiting, acting on a concrete running world. -/
theorem abort_shutdown_order_witness :
    (RawEventStreamHandler.mk (some (⟨false⟩, ⟨⟩, ⟨⟩))).abort.2
      = [BridgeAction.addObserver]
          ++ (if (⟨false⟩ : RunLoop).isWaiting then [] else [BridgeAction.recvIdleSignal])
          ++ [BridgeAction.removeObserver, BridgeAction.stopRunLoop,
              BridgeAction.joinThread, BridgeAction.abortStream]
    ∧ applyTrace ⟨true, true, false⟩ (RawEventStreamHandler.mk (some (⟨false⟩, ⟨⟩, ⟨⟩))).abort.2
        = { loopRunning := false, threadAlive := false, streamAborted := true } :=
  abort_shutdown_order (RawEventStreamHandler.mk (some (⟨false⟩, ⟨⟩, ⟨⟩)))
    ⟨false⟩ ⟨⟩ ⟨⟩ ⟨true, true, false⟩ rfl

/-- Claim C2: the shutdown protocol runs at most once per handler: the
first `abort` consumes the owned triple (`runloop` becomes `None`), and
calling `abort` again on the resulting handler returns normally with an
empty action trace — no panic, no second join, no second loop stop. -/
theorem abort_at_most_once (h : RawEventStreamHandler) :
    (h.abort.1).runloop = none
    ∧ (h.abort.1).abort = (h.abort.1, []) := by
  obtain ⟨r⟩ := h
  cases r with
  | none => exact ⟨rfl, rfl⟩
  | some t =>
    obtain ⟨rl, th, ah⟩ := t
    exact ⟨rfl, rfl⟩

/-- Claim C9: discarding a `RawEventStreamHandler` without calling
`abort` (the struct has no `Drop` impl, only field destructors run)
performs no shutdown action: the run loop keeps running, the thread is
neither stopped nor joined, the async stream is not aborted, and the
external state is completely unchanged. -/
theorem drop_without_abort_no_shutdown (w : World) (h : RawEventStreamHandler) :
    applyTrace w (dropHandler h) = w
    ∧ BridgeAction.stopRunLoop ∉ dropHandler h
    ∧ BridgeAction.joinThread ∉ dropHandler h
    ∧ BridgeAction.abortStream ∉ dropHandler h := by
  obtain ⟨r⟩ := h
  cases r with
  | none =>
    exact ⟨rfl, by simp [dropHandler], by simp [dropHandler], by simp [dropHandler]⟩
  | some t =>
    exact ⟨rfl, by simp [dropHandler], by simp [dropHandler], by simp [dropHandler]⟩

theorem abortStream_mem_trace (h : RawEventStreamHandler)
    (t : RunLoop × ThreadHandle × AbortHandle) (hr : h.runloop = some t) :
    BridgeAction.abortStream ∈ h.abort.2 := by
  obtain ⟨rl, th, ah⟩ := t
  unfold RawEventStreamHandler.abort
  rw [hr]
  cases rl.isWaiting <;> simp

/-- Claim C3: after `abort` returns on the handler paired with a stream
(the handler still owning its triple), the stream's aborted flag is set,
and every subsequent `poll_next` — the n-th poll for every n — reports
the end of the sequence (`Ready(None)`): no further items, no suspension
(`pending`), and the item type admits no error value. -/
theorem abort_terminates_stream {F : Type} (h : RawEventStreamHandler)
    (s : RawEventStream F) (t : RunLoop × ThreadHandle × AbortHandle)
    (hr : h.runloop = some t) :
    (abortPair h s).2.aborted = true
    ∧ ∀ n : Nat,
        pollNext (pollDrive^[n] (abortPair h s).2)
          = (.ready none, pollDrive^[n] (abortPair h s).2) := by
  have habort : (abortPair h s).2 = { s with aborted := true } := by
    unfold abortPair
    simp only [if_pos (abortStream_mem_trace h t hr)]
  have hfix : ∀ n : Nat, pollDrive^[n] (abortPair h s).2 = (abortPair h s).2 := by
    intro n
    induction n with
    | zero => rfl
    | succ k ih =>
      rw [Function.iterate_succ_apply', ih]
      unfold pollDrive
      rw [pollNext_aborted _ (by rw [habort])]
  constructor
  · rw [habort]
  · intro n
    rw [hfix n]
    exact pollNext_aborted _ (by rw [habort])

/-- Witness for C3: a concrete aborted pair, polled twice. -/
theorem abort_terminates_stream_witness :
    (abortPair (RawEventStreamHandler.mk (some (⟨true⟩, ⟨⟩, ⟨⟩)))
        (⟨false, mkChannel (RawEvent Nat) 1024⟩ : RawEventStream Nat)).2.aborted = true
    ∧ pollNext (pollDrive^[2] (abortPair (RawEventStreamHandler.mk (some (⟨true⟩, ⟨⟩, ⟨⟩)))
          (⟨false, mkChannel (RawEvent Nat) 1024⟩ : RawEventStream Nat)).2)
        = (.ready none, pollDrive^[2] (abortPair (RawEventStreamHandler.mk (some (⟨true⟩, ⟨⟩, ⟨⟩)))
          (⟨false, mkChannel (RawEvent Nat) 1024⟩ : RawEventStream Nat)).2) :=
  ⟨(abort_terminates_stream (RawEventStreamHandler.mk (some (⟨true⟩, ⟨⟩, ⟨⟩)))
      (⟨false, mkChannel (RawEvent Nat) 1024⟩ : RawEventStream Nat) (⟨true⟩, ⟨⟩, ⟨⟩) rfl).1,
   (abort_terminates_stream (RawEventStreamHandler.mk (some (⟨true⟩, ⟨⟩, ⟨⟩)))
      (⟨false, mkChannel (RawEvent Nat) 1024⟩ : RawEventStream Nat) (⟨true⟩, ⟨⟩, ⟨⟩) rfl).2 2⟩

/-- Whether an `Except` is the success variant (`Result::is_ok`). -/
def isOkB {ε α : Type} : Except ε α → Bool
  | .ok _ => true
  | .error _ => false

/-- Claim C7: when creation of the native watch-stream object fails
(`FSEventStream::new` returns an error, e.g. for an invalid path),
`raw_event_stream` surfaces exactly that `io::Error`, and its action
trace contains no thread spawn — the `?` operator returns before
`thread::spawn`, so no host thread and no handler/stream pair exist.
Moreover construction succeeds exactly when the native creation does:
this is the only failure mode. -/
theorem construction_failure_no_thread (F : Type)
    (newRes : Except IOError Unit) (rl : RunLoop) :
    (∀ e : IOError, newRes = .error e →
      (raw_event_stream F newRes rl).1 = .error e
      ∧ BridgeAction.spawnThread ∉ (raw_event_stream F newRes rl).2)
    ∧ isOkB (raw_event_stream F newRes rl).1 = isOkB newRes := by
  cases newRes with
  | error e0 =>
    refine ⟨?_, rfl⟩
    intro e he
    simp only [Except.error.injEq] at he
    subst he
    exact ⟨rfl, by simp [raw_event_stream]⟩
  | ok u =>
    refine ⟨?_, rfl⟩
    intro e he
    exact absurd he (by simp)

/-- Witness for C7: a concrete failing creation. -/
theorem construction_failure_no_thread_witness :
    ((raw_event_stream Nat (.error ⟨"invalid path"⟩) ⟨false⟩).1 = .error ⟨"invalid path"⟩
      ∧ BridgeAction.spawnThread ∉ (raw_event_stream Nat (.error ⟨"invalid path"⟩) ⟨false⟩).2)
    ∧ isOkB (raw_event_stream Nat (.error ⟨"invalid path"⟩) ⟨false⟩).1
        = isOkB (Except.error (α := Unit) (⟨"invalid path"⟩ : IOError)) :=
  ⟨(construction_failure_no_thread Nat (.error ⟨"invalid path"⟩) ⟨false⟩).1
      ⟨"invalid path"⟩ rfl,
   (construction_failure_no_thread Nat (.error ⟨"invalid path"⟩) ⟨false⟩).2⟩

/-- Claim C4: the event channel created by `raw_event_stream` has fixed
capacity 1024, and an entry that decodes successfully but meets a full
or closed channel is dropped — `try_send` leaves the channel (and its
buffer) unchanged — with the delivery failure logged; `processEntry` is
a total function into states, so the send never waits and no error value
is propagated to the native caller. -/
theorem send_nonblocking_lossy {F : Type} (fromBits : Nat → Option F) :
    (∀ (rl : RunLoop) (st : RawEventStream F) (hd : RawEventStreamHandler),
        (raw_event_stream F (.ok ()) rl).1 = .ok (st, hd) →
        st.chan.capacity = 1024)
    ∧ (∀ (s : CbState F) (e : NativeEntry) (ev : RawEvent F),
        decodeEntry fromBits e = .ok ev →
        s.chan.receiverDropped = true ∨ s.chan.capacity ≤ s.chan.buffer.length →
        processEntry fromBits s e
          = { chan := s.chan, logs := s.logs ++ [.sendFail] }) := by
  constructor
  · intro rl st hd hok
    have hred : (raw_event_stream F (.ok ()) rl).1
        = .ok ({ aborted := false, chan := mkChannel (RawEvent F) 1024 },
            { runloop := some (rl, ⟨⟩, ⟨⟩) }) := rfl
    rw [hred] at hok
    simp only [Except.ok.injEq, Prod.mk.injEq] at hok
    rw [← hok.1]
    rfl
  · intro s e ev hdec hfc
    obtain ⟨err, hsend⟩ := trySend_fail s.chan ev hfc
    simp only [processEntry, hdec, hsend]

/-- Witness for C4: the constructed channel's capacity, and a concrete
decodable entry hitting a concrete at-capacity channel. -/
theorem send_nonblocking_lossy_witness :
    ({ aborted := false, chan := mkChannel (RawEvent Nat) 1024 } :
        RawEventStream Nat).chan.capacity = 1024
    ∧ processEntry fromBitsTest
        { chan := { capacity := 0, buffer := [], receiverDropped := false }, logs := [] }
        entryA
      = { chan := { capacity := 0, buffer := [], receiverDropped := false },
          logs := [] ++ [.sendFail] } :=
  ⟨(send_nonblocking_lossy fromBitsTest).1 ⟨false⟩
      { aborted := false, chan := mkChannel (RawEvent Nat) 1024 }
      { runloop := some (⟨false⟩, ⟨⟩, ⟨⟩) } rfl,
   (send_nonblocking_lossy fromBitsTest).2
      { chan := { capacity := 0, buffer := [], receiverDropped := false }, logs := [] }
      entryA evA rfl (Or.inr (by decide))⟩

/-- Claim C5: a per-entry decode failure (inode not convertible to a
64-bit integer, or raw flags not decodable) makes `callback_impl` log
the matching error line and skip only that entry: the channel evolution
over the surrounding entries of the same batch and over all later
batches is exactly that of the run without the malformed entry. -/
theorem decode_failure_skips_only_entry {F : Type} (fromBits : Nat → Option F)
    (s : CbState F) (bad : NativeEntry) (err : CallbackError)
    (pre post : List NativeEntry) (batches : List (List NativeEntry))
    (h : decodeEntry fromBits bad = .error err) :
    processEntry fromBits s bad = { s with logs := s.logs ++ [errLog err] }
    ∧ (runBatches fromBits s ((pre ++ bad :: post) :: batches)).chan
        = (runBatches fromBits s ((pre ++ post) :: batches)).chan := by
  constructor
  · unfold processEntry
    rw [h]
    cases err <;> rfl
  · have hs : ∀ ch, chanStep fromBits ch bad = ch :=
      fun ch => chanStep_error fromBits ch bad err h
    rw [runBatches_chan, runBatches_chan]
    simp only [List.flatten_cons, List.foldl_append, List.foldl_cons, hs]

/-- Witness for C5: a concrete batch whose middle entry has an
unconvertible inode, with a well-formed sibling on each side and a
well-formed later batch. -/
theorem decode_failure_skips_only_entry_witness :
    processEntry fromBitsTest { chan := mkChannel (RawEvent Nat) 1024, logs := [] } entryBad
      = { chan := mkChannel (RawEvent Nat) 1024, logs := [] ++ [errLog .ToI64] }
    ∧ (runBatches fromBitsTest { chan := mkChannel (RawEvent Nat) 1024, logs := [] }
          (([entryA] ++ entryBad :: [eId5]) :: [[eId3]])).chan
        = (runBatches fromBitsTest { chan := mkChannel (RawEvent Nat) 1024, logs := [] }
          (([entryA] ++ [eId5]) :: [[eId3]])).chan :=
  decode_failure_skips_only_entry fromBitsTest
    { chan := mkChannel (RawEvent Nat) 1024, logs := [] }
    entryBad .ToI64 [entryA] [eId5] [[eId3]] rfl

/-- Claim C6, counterexample: `callback_impl` forwards event ids exactly
as the native layer hands them; for the single batch `[eId5, eId3]`
(ids 5 then 3, both well-formed) both events are delivered, in input
order, and the delivered id sequence `[5, 3]` is not non-decreasing —
refuting the unconditional monotonicity part of the claim. -/
theorem delivered_ids_not_monotone :
    (deliveredEvents fromBitsTest 1024 [[eId5, eId3]]).map RawEvent.id = [5, 3]
    ∧ ¬ List.Pairwise (· ≤ ·)
        ((deliveredEvents fromBitsTest 1024 [[eId5, eId3]]).map RawEvent.id) := by
  have h1 : (deliveredEvents fromBitsTest 1024 [[eId5, eId3]]).map RawEvent.id
      = [5, 3] := rfl
  refine ⟨h1, ?_⟩
  rw [h1]
  decide

/-- Claim C6 (amended): the consumer observes the delivered Event
Records in the same relative order the Callback Bridge decoded them —
batch by batch, entry by entry, FIFO through the channel (the delivered
sequence is an order-preserving subsequence of the successfully decoded
entries of the concatenated batches) — and, provided the ids handed by
the native layer are non-decreasing across the batches, each delivered
record's `id` is ≥ the previously delivered record's `id`. -/
theorem delivered_order_monotone (F : Type) (fromBits : Nat → Option F)
    (cap : Nat) (batches : List (List NativeEntry)) :
    List.Sublist (deliveredEvents fromBits cap batches)
      (decodedOk fromBits batches.flatten)
    ∧ (List.Pairwise (· ≤ ·) (batches.flatten.map NativeEntry.id) →
        List.Pairwise (· ≤ ·)
          ((deliveredEvents fromBits cap batches).map RawEvent.id)) := by
  have hdel : deliveredEvents fromBits cap batches
      = (batches.flatten.foldl (chanStep fromBits)
          (mkChannel (RawEvent F) cap)).buffer := by
    unfold deliveredEvents
    rw [runBatches_chan]
  obtain ⟨extra, hbuf, hsub⟩ :=
    chanFold_buffer fromBits batches.flatten (mkChannel (RawEvent F) cap)
  have hdel2 : deliveredEvents fromBits cap batches = extra := by
    rw [hdel, hbuf]
    rfl
  constructor
  · rw [hdel2]
    exact hsub
  · intro hmono
    rw [hdel2]
    exact hmono.sublist ((hsub.map RawEvent.id).trans
      (decodedOk_ids fromBits batches.flatten))

/-- Witness for C6 (amended): a concrete batch whose native ids 3, 5 are
non-decreasing; both delivered, in order, with non-decreasing ids. -/
theorem delivered_order_monotone_witness :
    List.Sublist (deliveredEvents fromBitsTest 1024 [[eId3, eId5]])
      (decodedOk fromBitsTest ([[eId3, eId5]] : List (List NativeEntry)).flatten)
    ∧ List.Pairwise (· ≤ ·)
        ((deliveredEvents fromBitsTest 1024 [[eId3, eId5]]).map RawEvent.id) :=
  ⟨(delivered_order_monotone Nat fromBitsTest 1024 [[eId3, eId5]]).1,
   (delivered_order_monotone Nat fromBitsTest 1024 [[eId3, eId5]]).2 (by decide)⟩

/-- A concrete panic payload. -/
def msgBoom : String := "boom"

/-- Another concrete panic payload. -/
def msgOverflow : String := "overflow"

/-- Claim C8, counterexample: the containment in `callback` is bare
`drop(catch_unwind(...))` with no log call on the panic path; a body
that panics immediately leaves the log sink exactly as it was — empty —
so no log line is emitted for the contained panic, refuting the
claim's logging conjunct. -/
theorem callback_panic_no_log :
    (callback (fun s : CbState Nat => PanicOutcome.panicked s msgBoom)
        { chan := mkChannel (RawEvent Nat) 1024, logs := [] }).logs = [] :=
  rfl

/-- Claim C8 (amended): the entire callback body runs inside
`catch_unwind`, so `callback` always returns normally — it is a total
function into states, nothing unwinds across the FFI boundary; when the
body panics, the rest of that invocation's work is dropped and the
resulting state is exactly the one reached at the panic — in particular
the containment appends no log line, the caught payload being silently
discarded (any panic message printed comes from the global panic hook,
not from this code). -/
theorem callback_panic_contained {F : Type}
    (body : CbState F → PanicOutcome (CbState F)) (s st : CbState F) :
    (∀ msg : String, body s = .panicked st msg →
      callback body s = st ∧ (callback body s).logs = st.logs)
    ∧ (body s = .ok st → callback body s = st) := by
  constructor
  · intro msg hp
    have hcb : callback body s = st := by
      unfold callback
      rw [hp]
    exact ⟨hcb, by rw [hcb]⟩
  · intro hp
    unfold callback
    rw [hp]

/-- Witness for C8 (amended): a concrete body panicking on a concrete
state. -/
theorem callback_panic_contained_witness :
    callback (fun s : CbState Nat => PanicOutcome.panicked s msgOverflow)
        { chan := mkChannel (RawEvent Nat) 1024, logs := [] }
      = { chan := mkChannel (RawEvent Nat) 1024, logs := [] }
    ∧ (callback (fun s : CbState Nat => PanicOutcome.panicked s msgOverflow)
        { chan := mkChannel (RawEvent Nat) 1024, logs := [] }).logs
      = ({ chan := mkChannel (RawEvent Nat) 1024, logs := [] } : CbState Nat).logs :=
  (callback_panic_contained
      (fun s : CbState Nat => PanicOutcome.panicked s msgOverflow)
      { chan := mkChannel (RawEvent Nat) 1024, logs := [] }
      { chan := mkChannel (RawEvent Nat) 1024, logs := [] }).1 msgOverflow rfl

/-- Claim C10: every event the callback delivers into the channel has
consistent flag fields: decoding its preserved `raw_flags` with the
external decoder succeeds and yields exactly its `flags` field; an
event whose raw flags cannot be decoded is never delivered. -/
theorem delivered_flags_consistent {F : Type} (fromBits : Nat → Option F)
    (cap : Nat) (batches : List (List NativeEntry)) (ev : RawEvent F)
    (h : ev ∈ deliveredEvents fromBits cap batches) :
    fromBits ev.raw_flags = some ev.flags := by
  have hdel : deliveredEvents fromBits cap batches
      = (batches.flatten.foldl (chanStep fromBits)
          (mkChannel (RawEvent F) cap)).buffer := by
    unfold deliveredEvents
    rw [runBatches_chan]
  obtain ⟨extra, hbuf, hsub⟩ :=
    chanFold_buffer fromBits batches.flatten (mkChannel (RawEvent F) cap)
  rw [hdel, hbuf] at h
  have hx : ev ∈ extra := by simpa [mkChannel] using h
  have hmem : ev ∈ decodedOk fromBits batches.flatten := hsub.subset hx
  unfold decodedOk at hmem
  obtain ⟨e, hmem2, hds⟩ := List.mem_filterMap.mp hmem
  have hok : decodeEntry fromBits e = .ok ev := except_toOption_eq_some _ _ hds
  obtain ⟨hid, hraw, hfl⟩ := decodeEntry_ok_spec fromBits e ev hok
  rw [hraw]
  exact hfl

/-- Witness for C10: the concrete entry `entryA` is delivered as `evA`,
whose raw flags decode back to its flags. -/
theorem delivered_flags_consistent_witness :
    evA ∈ deliveredEvents fromBitsTest 1024 [[entryA]]
    ∧ fromBitsTest evA.raw_flags = some evA.flags :=
  have hmem : evA ∈ deliveredEvents fromBitsTest 1024 [[entryA]] := by
    have hd : deliveredEvents fromBitsTest 1024 [[entryA]] = [evA] := rfl
    rw [hd]
    exact List.mem_singleton.mpr rfl
  ⟨hmem, delivered_flags_consistent fromBitsTest 1024 [[entryA]] evA hmem⟩
